import Mathlib

/-!
Verification of the boids simulation (`src/main.rs`).

The Rust program's `f32` arithmetic is embedded with exact rationals `ℚ`:
every operation the update engine performs is addition, subtraction,
multiplication, absolute value and comparison, and every claim under study
is about the algebraic/branch structure of the code, not about rounding.

The embedding follows the source closely:
- `Boid`, `Params`, `DirectionX`, `DirectionY`, `Model` mirror the Rust
  structs and enums;
- `Boid.separate` mirrors `Boid::separate`;
- `updateBoid` is the body of the per-agent loop in `update`
  (separation, speed clamp, boundary direction machine, movement);
- `updateOrder` is the sequential in-place mutation loop itself, made
  explicit over the list of indices it visits (the source visits
  `0..boids.len()` in order);
- `update` is one tick: snapshot of positions, then the loop;
- `mkBoids` is the construction loop of `model`, with the loop bound
  (10 in the source) abstracted to `n`; `initialModel` instantiates it
  at the source's constants.
-/

namespace Boids

/-- A 2D vector, the `Vec2` of the source. -/
structure Vec2 where
  x : ℚ
  y : ℚ
  deriving DecidableEq

/-- Horizontal direction flag, the `DirectionX` enum. -/
inductive DirectionX where
  | Right
  | Left
  deriving DecidableEq

/-- Vertical direction flag, the `DirectionY` enum. -/
inductive DirectionY where
  | Top
  | Bottom
  deriving DecidableEq

/-- One agent, the `Boid` struct. -/
structure Boid where
  position : Vec2
  velocity : Vec2
  direction_x : DirectionX
  direction_y : DirectionY
  deriving DecidableEq

/-- The tuning-parameter bundle, the `Params` struct. -/
structure Params where
  turnfactor : ℚ
  visual_range : ℚ
  protected_range : ℚ
  centering_factor : ℚ
  avoid_factor : ℚ
  matching_factor : ℚ
  max_speed : ℚ
  min_speed : ℚ
  max_bias : ℚ
  bias_increment : ℚ
  default_bias_val : ℚ
  deriving DecidableEq

/-- The constants of the source (`TURNFACTOR` … `DEFAULT_BIAS_VAL`),
as assembled into `Params` by `model`. -/
def defaultParams : Params where
  turnfactor := 1/5
  visual_range := 40
  protected_range := 15
  centering_factor := 1/2000
  avoid_factor := 1/200
  matching_factor := 1/20
  max_speed := 6
  min_speed := 3
  max_bias := 1/100
  bias_increment := 1/25000
  default_bias_val := 1/1000

/-- The viewport boundary rectangle (`_app.window_rect()`). -/
structure Rect where
  left : ℚ
  right : ℚ
  bottom : ℚ
  top : ℚ
  deriving DecidableEq

/-- Zero vector, used as the out-of-range default for list lookups
(no lookup in the development ever goes out of range). -/
def v0 : Vec2 := ⟨0, 0⟩

/-- Default boid for out-of-range list lookups. -/
def b0 : Boid where
  position := v0
  velocity := v0
  direction_x := DirectionX.Right
  direction_y := DirectionY.Top

/-- The body of the accumulation loop of `Boid::separate`: one step of the
fold over peer index `i`, carrying the running `(close_dx, close_dy)`. -/
def closeStep (pos : Vec2) (boid_positions : List Vec2) (current_boid_index : Nat)
    (protected_range : ℚ) (acc : ℚ × ℚ) (i : Nat) : ℚ × ℚ :=
  if i = current_boid_index then acc
  else
    let other := boid_positions.getD i v0
    if |pos.x - other.x| < protected_range ∨ |pos.y - other.y| < protected_range then
      (acc.1 + (pos.x - other.x), acc.2 + (pos.y - other.y))
    else acc

/-- The accumulation loop of `Boid::separate`: `(close_dx, close_dy)` after
scanning indices `0..boid_positions.len()`. -/
def separateClose (pos : Vec2) (boid_positions : List Vec2) (current_boid_index : Nat)
    (protected_range : ℚ) : ℚ × ℚ :=
  (List.range boid_positions.length).foldl
    (closeStep pos boid_positions current_boid_index protected_range) (0, 0)

/-- `Boid::separate`: accumulate `(close_dx, close_dy)` over the snapshot and
nudge the position by `close · avoid_factor`.  The `max_speed` argument is
taken (and ignored) exactly as in the source. -/
def Boid.separate (b : Boid) (boid_positions : List Vec2) (current_boid_index : Nat)
    (avoid_factor protected_range max_speed : ℚ) : Boid :=
  let c := separateClose b.position boid_positions current_boid_index protected_range
  { b with position := ⟨b.position.x + c.1 * avoid_factor, b.position.y + c.2 * avoid_factor⟩ }

/-- One axis of the speed clamp in `update`:
`if v > max_speed { v = max_speed }`. -/
def clampSpeed (v ms : ℚ) : ℚ := if v > ms then ms else v

/-- The horizontal boundary check of `update` (margin 10, `else if` chain). -/
def stepDirX (px : ℚ) (r : Rect) (d : DirectionX) : DirectionX :=
  if px ≥ r.right - 10 then DirectionX.Left
  else if px ≤ r.left + 10 then DirectionX.Right
  else d

/-- The vertical boundary check of `update` (margin 10, `else if` chain). -/
def stepDirY (py : ℚ) (r : Rect) (d : DirectionY) : DirectionY :=
  if py ≥ r.top - 10 then DirectionY.Bottom
  else if py ≤ r.bottom + 10 then DirectionY.Top
  else d

/-- The horizontal movement match of `update`:
subtract the speed when heading `Left`, add it when heading `Right`. -/
def moveX (px vx : ℚ) (d : DirectionX) : ℚ :=
  match d with
  | DirectionX.Left => px - vx
  | DirectionX.Right => px + vx

/-- The vertical movement match of `update`:
add the speed when heading `Top`, subtract it when heading `Bottom`. -/
def moveY (py vy : ℚ) (d : DirectionY) : ℚ :=
  match d with
  | DirectionY.Top => py + vy
  | DirectionY.Bottom => py - vy

/-- The body of the per-agent loop of `update`, applied to agent `i`:
separation against the snapshot, per-axis speed clamp, boundary direction
update, then movement along the current direction flags. -/
def updateBoid (snapshot : List Vec2) (p : Params) (r : Rect) (i : Nat) (b : Boid) : Boid :=
  let b1 := b.separate snapshot i p.avoid_factor p.protected_range p.max_speed
  let vx := clampSpeed b1.velocity.x p.max_speed
  let vy := clampSpeed b1.velocity.y p.max_speed
  let dx := stepDirX b1.position.x r b1.direction_x
  let dy := stepDirY b1.position.y r b1.direction_y
  { position := ⟨moveX b1.position.x vx dx, moveY b1.position.y vy dy⟩,
    velocity := ⟨vx, vy⟩,
    direction_x := dx,
    direction_y := dy }

/-- The sequential in-place loop of `update`, explicit over the list of
indices it visits: each visited index is overwritten with the update of the
boid currently stored there.  The source visits `0..boids.len()` in order. -/
def updateOrder (snapshot : List Vec2) (p : Params) (r : Rect)
    (order : List Nat) (boids : List Boid) : List Boid :=
  order.foldl (fun bs i => bs.set i (updateBoid snapshot p r i (bs.getD i b0))) boids

/-- The simulation state: the agents and the parameter bundle
(the `Model` struct, minus the window handle, which the core never reads). -/
structure Model where
  boids : List Boid
  params : Params
  deriving DecidableEq

/-- One tick of `update`: snapshot every position, then run the per-agent
loop over indices `0..boids.len()`. -/
def update (r : Rect) (m : Model) : Model :=
  let snapshot := m.boids.map Boid.position
  { m with boids := updateOrder snapshot m.params r (List.range m.boids.length) m.boids }

/-- The construction loop of `model`, with the loop bound abstracted:
agent `i` is placed at `(-100 + i·10, 100 + i·30)` with velocity `(4, 3)`
and direction flags `(Right, Top)`.  The source runs it with bound 10. -/
def mkBoids (n : Nat) : List Boid :=
  (List.range n).map (fun i : Nat =>
    { position := ⟨-100 + (i : ℚ) * 10, 100 + (i : ℚ) * 30⟩,
      velocity := ⟨4, 3⟩,
      direction_x := DirectionX.Right,
      direction_y := DirectionY.Top })

/-- The state built by `model`: 10 staggered boids and the default params. -/
def initialModel : Model where
  boids := mkBoids 10
  params := defaultParams

/-- `k` ticks of the simulation, the boundary rectangle supplied afresh each
tick by the driver (it may change between ticks). -/
def iterateUpdate (rects : Nat → Rect) : Nat → Model → Model
  | 0, m => m
  | k + 1, m => update (rects k) (iterateUpdate rects k m)

/-! ### Specification-side restatements

These definitions follow the spec's words (per-peer displacement, the
inclusive-OR trigger, summation over exactly the triggering peers, the
per-index placement formula); the theorems below compare them with the
definitions transcribed from the source. -/

/-- Displacement `position[i].x - position[j].x` of the spec, for peer `j`. -/
def dxAt (pos : Vec2) (ps : List Vec2) (j : Nat) : ℚ := pos.x - (ps.getD j v0).x

/-- Displacement `position[i].y - position[j].y` of the spec, for peer `j`. -/
def dyAt (pos : Vec2) (ps : List Vec2) (j : Nat) : ℚ := pos.y - (ps.getD j v0).y

/-- The spec's separation trigger for peer `j`: `j` is not the agent itself
and `|d.x| < protected_range` or `|d.y| < protected_range`. -/
def closePeer (pos : Vec2) (ps : List Vec2) (idx : Nat) (pr : ℚ) (j : Nat) : Bool :=
  j ≠ idx ∧ (|dxAt pos ps j| < pr ∨ |dyAt pos ps j| < pr)

/-- The spec's `(close_dx, close_dy)`: the sums of the per-axis displacements
over exactly the peers that satisfy the trigger. -/
def closeSums (pos : Vec2) (ps : List Vec2) (idx : Nat) (pr : ℚ) : ℚ × ℚ :=
  ((((List.range ps.length).filter (closePeer pos ps idx pr)).map (dxAt pos ps)).sum,
   (((List.range ps.length).filter (closePeer pos ps idx pr)).map (dyAt pos ps)).sum)

/-- Velocity applied with the sign implied by the horizontal flag
(the spec's `±velocity.x` selected by `direction_x`). -/
def signedX (d : DirectionX) (v : ℚ) : ℚ :=
  match d with
  | DirectionX.Right => v
  | DirectionX.Left => -v

/-- Velocity applied with the sign implied by the vertical flag
(the spec's `±velocity.y` selected by `direction_y`). -/
def signedY (d : DirectionY) (v : ℚ) : ℚ :=
  match d with
  | DirectionY.Top => v
  | DirectionY.Bottom => -v

/-! ### Concrete instances used for witnesses and counterexamples -/

/-- An 800×600 viewport centered at the origin. -/
def rW : Rect := ⟨-400, 400, -300, 300⟩

/-- An agent at the origin with the initial velocity of the program. -/
def bA : Boid where
  position := ⟨0, 0⟩
  velocity := ⟨4, 3⟩
  direction_x := DirectionX.Right
  direction_y := DirectionY.Top

/-- An agent one unit to the right of `bA` (within protected range of it). -/
def bB : Boid where
  position := ⟨1, 0⟩
  velocity := ⟨4, 3⟩
  direction_x := DirectionX.Right
  direction_y := DirectionY.Top

/-- A two-agent flock with the default parameters. -/
def mW : Model where
  boids := [bA, bB]
  params := defaultParams

/-- A degenerate 0×0 viewport: its margins overlap. -/
def rDeg : Rect := ⟨0, 0, 0, 0⟩

/-- A motionless agent at the origin. -/
def bDeg : Boid where
  position := ⟨0, 0⟩
  velocity := ⟨0, 0⟩
  direction_x := DirectionX.Right
  direction_y := DirectionY.Top

/-- A one-agent flock holding `bDeg`. -/
def mDeg : Model where
  boids := [bDeg]
  params := defaultParams

/-- An agent 5 units from the right edge of `rW`. -/
def bEdge : Boid where
  position := ⟨395, 0⟩
  velocity := ⟨4, 3⟩
  direction_x := DirectionX.Right
  direction_y := DirectionY.Top

/-- An agent whose velocity components are below `min_speed` (one below 0). -/
def bSlow : Boid where
  position := ⟨0, 0⟩
  velocity := ⟨-5, 2⟩
  direction_x := DirectionX.Right
  direction_y := DirectionY.Top

/-- A one-agent flock holding `bSlow`. -/
def mSlow : Model where
  boids := [bSlow]
  params := defaultParams

-- Sanity checks of the embedding on concrete inputs.
example : (mkBoids 10).length = 10 := by
  rw [mkBoids, List.length_map, List.length_range]
example : ((mkBoids 3).getD 2 b0).position = ⟨-80, 160⟩ := by
  norm_num [mkBoids, List.range_succ]
example : clampSpeed 7 6 = 6 := by norm_num [clampSpeed]
example : clampSpeed (-5) 6 = -5 := by norm_num [clampSpeed]
example : stepDirX 395 ⟨-400, 400, -300, 300⟩ DirectionX.Right = DirectionX.Left := by
  norm_num [stepDirX]
example : stepDirX 0 ⟨-400, 400, -300, 300⟩ DirectionX.Right = DirectionX.Right := by
  norm_num [stepDirX]
example :
    separateClose ⟨0, 0⟩ [⟨0, 0⟩, ⟨1, 0⟩] 0 15 = (-1, 0) := by
  norm_num [separateClose, closeStep, List.range_succ, v0]
example :
    ((update ⟨-400, 400, -300, 300⟩
        { boids := [{ b0 with position := ⟨0, 0⟩, velocity := ⟨4, 3⟩ }], params := defaultParams }).boids.getD
      0 b0).position = ⟨4, 3⟩ := by
  norm_num [update, updateOrder, updateBoid, Boid.separate, separateClose, closeStep,
    clampSpeed, stepDirX, stepDirY, moveX, moveY, defaultParams, List.range_succ, v0, b0]

/-! ### Helper lemmas -/

lemma updateOrder_nil (s : List Vec2) (p : Params) (r : Rect) (bs : List Boid) :
    updateOrder s p r [] bs = bs := rfl

lemma updateOrder_cons (s : List Vec2) (p : Params) (r : Rect) (i : Nat) (o : List Nat)
    (bs : List Boid) :
    updateOrder s p r (i :: o) bs =
      updateOrder s p r o (bs.set i (updateBoid s p r i (bs.getD i b0))) := rfl

lemma updateOrder_length (s : List Vec2) (p : Params) (r : Rect) (o : List Nat) :
    ∀ bs : List Boid, (updateOrder s p r o bs).length = bs.length := by
  induction o with
  | nil => intro bs; rfl
  | cons i t ih =>
    intro bs
    rw [updateOrder_cons, ih, List.length_set]

lemma getD_set_self (l : List Boid) (i : Nat) (a d : Boid) (h : i < l.length) :
    (l.set i a).getD i d = a := by
  rw [List.getD_eq_getElem _ _ (by simpa using h)]
  exact List.getElem_set_self _

lemma getD_set_ne (l : List Boid) (i j : Nat) (a d : Boid) (h : i ≠ j) :
    (l.set i a).getD j d = l.getD j d := by
  rcases Nat.lt_or_ge j l.length with hj | hj
  · rw [List.getD_eq_getElem _ _ (by simpa using hj),
      List.getD_eq_getElem _ _ hj]
    exact List.getElem_set_ne h _
  · rw [List.getD_eq_default _ _ (by simpa using hj), List.getD_eq_default _ _ hj]

/-- The sequential loop at each index it visits: when the visited indices are
pairwise distinct and in range, the agent stored at index `j` after the loop
is the update of the PRE-loop agent at `j` (the snapshot is the only shared
input), and an unvisited index is untouched. -/
lemma updateOrder_getD (s : List Vec2) (p : Params) (r : Rect) (o : List Nat) :
    ∀ bs : List Boid, o.Nodup → (∀ k ∈ o, k < bs.length) → ∀ j : Nat,
      (updateOrder s p r o bs).getD j b0 =
        if j ∈ o then updateBoid s p r j (bs.getD j b0) else bs.getD j b0 := by
  induction o with
  | nil => intro bs _ _ j; simp [updateOrder_nil]
  | cons i t ih =>
    intro bs hnd hlt j
    rw [updateOrder_cons]
    have hi : i < bs.length := hlt i (List.mem_cons_self i t)
    have hnd' : t.Nodup := hnd.of_cons
    have hint : i ∉ t := (List.nodup_cons.mp hnd).1
    have hlt' : ∀ k ∈ t, k < (bs.set i (updateBoid s p r i (bs.getD i b0))).length := by
      intro k hk
      rw [List.length_set]
      exact hlt k (List.mem_cons_of_mem i hk)
    rw [ih _ hnd' hlt' j]
    by_cases hjt : j ∈ t
    · have hji : i ≠ j := fun hij => hint (hij ▸ hjt)
      rw [if_pos hjt, if_pos (List.mem_cons_of_mem i hjt), getD_set_ne _ _ _ _ _ hji]
    · by_cases hji : j = i
      · subst hji
        rw [if_neg hjt, if_pos (List.mem_cons_self j t), getD_set_self _ _ _ _ hi]
      · have : j ∉ i :: t := by
          intro hmem
          rcases List.mem_cons.mp hmem with h1 | h2
          · exact hji h1
          · exact hjt h2
        rw [if_neg hjt, if_neg this, getD_set_ne _ _ _ _ _ (fun h => hji h.symm)]

/-- The accumulation loop of `Boid::separate`, over any index list and from
any starting accumulator, equals the starting accumulator plus the filtered
sums of the spec. -/
lemma foldl_closeStep (pos : Vec2) (ps : List Vec2) (idx : Nat) (pr : ℚ) (l : List Nat) :
    ∀ a : ℚ × ℚ, l.foldl (closeStep pos ps idx pr) a =
      (a.1 + ((l.filter (closePeer pos ps idx pr)).map (dxAt pos ps)).sum,
       a.2 + ((l.filter (closePeer pos ps idx pr)).map (dyAt pos ps)).sum) := by
  induction l with
  | nil => intro a; simp
  | cons i t ih =>
    intro a
    rw [List.foldl_cons, ih, List.filter_cons]
    by_cases hi : i = idx
    · have h1 : closeStep pos ps idx pr a i = a := by
        simp [closeStep, hi]
      have h2 : closePeer pos ps idx pr i = false := by
        simp [closePeer, hi]
      rw [h1, h2]
      simp
    · have h1 : closeStep pos ps idx pr a i =
          if |dxAt pos ps i| < pr ∨ |dyAt pos ps i| < pr then
            (a.1 + dxAt pos ps i, a.2 + dyAt pos ps i)
          else a := by
        simp only [closeStep, dxAt, dyAt]
        rw [if_neg hi]
      by_cases hc : |dxAt pos ps i| < pr ∨ |dyAt pos ps i| < pr
      · have h2 : closePeer pos ps idx pr i = true := by
          simp only [closePeer, decide_eq_true_eq]
          exact ⟨hi, hc⟩
        rw [h1, if_pos hc, h2]
        simp only [if_pos, List.map_cons, List.sum_cons, Prod.mk.injEq]
        constructor <;> ring
      · have h2 : closePeer pos ps idx pr i = false := by
          simp only [closePeer, decide_eq_false_iff_not]
          intro hand
          exact hc hand.2
        rw [h1, if_neg hc, h2]
        simp

/-- `(close_dx, close_dy)` of the source loop equal the spec's filtered sums. -/
lemma separateClose_eq_closeSums (pos : Vec2) (ps : List Vec2) (idx : Nat) (pr : ℚ) :
    separateClose pos ps idx pr = closeSums pos ps idx pr := by
  rw [separateClose, foldl_closeStep]
  simp [closeSums]

/-- One tick, seen agent by agent: the post-tick agent at index `j` is the
update of the pre-tick agent at `j` against the pre-tick snapshot. -/
lemma update_getD (r : Rect) (m : Model) (j : Nat) (hj : j < m.boids.length) :
    (update r m).boids.getD j b0 =
      updateBoid (m.boids.map Boid.position) m.params r j (m.boids.getD j b0) := by
  simp only [update]
  rw [updateOrder_getD _ _ _ _ _ (List.nodup_range _) (fun k hk => List.mem_range.mp hk) j,
    if_pos (List.mem_range.mpr hj)]

lemma clampSpeed_le (v ms : ℚ) : clampSpeed v ms ≤ ms := by
  unfold clampSpeed
  split
  · exact le_refl ms
  · exact le_of_not_lt (by assumption)

lemma clampSpeed_eq_of_le {v ms : ℚ} (h : v ≤ ms) : clampSpeed v ms = v := by
  unfold clampSpeed
  rw [if_neg (not_lt.mpr h)]

lemma mkBoids_length (n : Nat) : (mkBoids n).length = n := by
  rw [mkBoids, List.length_map, List.length_range]

lemma mkBoids_getD (n i : Nat) (hi : i < n) :
    (mkBoids n).getD i b0 =
      { position := ⟨-100 + (i : ℚ) * 10, 100 + (i : ℚ) * 30⟩,
        velocity := ⟨4, 3⟩,
        direction_x := DirectionX.Right,
        direction_y := DirectionY.Top } := by
  have hlen : i < (mkBoids n).length := by rw [mkBoids_length]; exact hi
  rw [List.getD_eq_getElem _ _ hlen]
  simp [mkBoids]

/-- A tick of a one-agent flock, in closed form. -/
lemma update_singleton (r : Rect) (b : Boid) (p : Params) :
    update r { boids := [b], params := p } =
      { boids := [updateBoid [b.position] p r 0 b], params := p } := rfl

/-- With no peer but itself, separation leaves an agent unchanged. -/
lemma separate_self_singleton (b : Boid) (af pr ms : ℚ) :
    b.separate [b.position] 0 af pr ms = b := by
  have h : separateClose b.position [b.position] 0 pr = (0, 0) := rfl
  simp [Boid.separate, h]

/-- The per-agent update of a lone agent, in closed form. -/
lemma updateBoid_singleton (p : Params) (r : Rect) (b : Boid) :
    updateBoid [b.position] p r 0 b =
      { position := ⟨moveX b.position.x (clampSpeed b.velocity.x p.max_speed)
                       (stepDirX b.position.x r b.direction_x),
                     moveY b.position.y (clampSpeed b.velocity.y p.max_speed)
                       (stepDirY b.position.y r b.direction_y)⟩,
        velocity := ⟨clampSpeed b.velocity.x p.max_speed,
                     clampSpeed b.velocity.y p.max_speed⟩,
        direction_x := stepDirX b.position.x r b.direction_x,
        direction_y := stepDirY b.position.y r b.direction_y } := by
  simp only [updateBoid, separate_self_singleton]

/-- Across any number of ticks of the built program, the parameter bundle,
the agent count and every agent's velocity are unchanged. -/
lemma iterate_invariant (rects : Nat → Rect) (k : Nat) :
    (iterateUpdate rects k initialModel).params = defaultParams ∧
    (iterateUpdate rects k initialModel).boids.length = 10 ∧
    ∀ j : Nat, j < 10 →
      ((iterateUpdate rects k initialModel).boids.getD j b0).velocity = ⟨4, 3⟩ := by
  induction k with
  | zero =>
    refine ⟨rfl, mkBoids_length 10, ?_⟩
    intro j hj
    show ((mkBoids 10).getD j b0).velocity = _
    rw [mkBoids_getD 10 j hj]
  | succ k ih =>
    obtain ⟨hp, hlen, hv⟩ := ih
    have hstep : iterateUpdate rects (k + 1) initialModel
        = update (rects k) (iterateUpdate rects k initialModel) := rfl
    refine ⟨?_, ?_, ?_⟩
    · rw [hstep]
      show (iterateUpdate rects k initialModel).params = _
      exact hp
    · rw [hstep]
      show (updateOrder _ _ _ _ _).length = 10
      rw [updateOrder_length]
      exact hlen
    · intro j hj
      have hjlen : j < (iterateUpdate rects k initialModel).boids.length := by
        rw [hlen]; exact hj
      rw [hstep, update_getD _ _ j hjlen]
      have hvel : (updateBoid ((iterateUpdate rects k initialModel).boids.map Boid.position)
            (iterateUpdate rects k initialModel).params (rects k) j
            ((iterateUpdate rects k initialModel).boids.getD j b0)).velocity
          = ⟨clampSpeed ((iterateUpdate rects k initialModel).boids.getD j b0).velocity.x
               (iterateUpdate rects k initialModel).params.max_speed,
             clampSpeed ((iterateUpdate rects k initialModel).boids.getD j b0).velocity.y
               (iterateUpdate rects k initialModel).params.max_speed⟩ := rfl
      rw [hvel, hv j hj, hp]
      have h4 : clampSpeed (4 : ℚ) defaultParams.max_speed = 4 :=
        clampSpeed_eq_of_le (by norm_num [defaultParams])
      have h3 : clampSpeed (3 : ℚ) defaultParams.max_speed = 3 :=
        clampSpeed_eq_of_le (by norm_num [defaultParams])
      rw [show (Vec2.mk 4 3).x = 4 from rfl, show (Vec2.mk 4 3).y = 3 from rfl, h4, h3]

/-! ### Claim theorems -/

/-- C1: Snapshot isolation — the tick reads every peer position from the
pre-tick snapshot: the post-tick agent at index `j` is a function of the
snapshot and that agent's own pre-tick state alone, and running the
sequential in-place loop over any two duplicate-free, in-range index orders
covering the same indices yields the same flock. -/
theorem snapshot_isolation (r : Rect) (m : Model) :
    (∀ j : Nat, j < m.boids.length →
      (update r m).boids.getD j b0 =
        updateBoid (m.boids.map Boid.position) m.params r j (m.boids.getD j b0)) ∧
    (∀ o1 o2 : List Nat, o1.Nodup → o2.Nodup →
      (∀ k ∈ o1, k < m.boids.length) → (∀ k ∈ o2, k < m.boids.length) →
      (∀ k : Nat, k ∈ o1 ↔ k ∈ o2) →
      updateOrder (m.boids.map Boid.position) m.params r o1 m.boids =
        updateOrder (m.boids.map Boid.position) m.params r o2 m.boids) := by
  constructor
  · exact fun j hj => update_getD r m j hj
  · intro o1 o2 h1 h2 hb1 hb2 hmem
    apply List.ext_getElem
    · rw [updateOrder_length, updateOrder_length]
    · intro j hj1 hj2
      have e1 := updateOrder_getD (m.boids.map Boid.position) m.params r o1 m.boids h1 hb1 j
      have e2 := updateOrder_getD (m.boids.map Boid.position) m.params r o2 m.boids h2 hb2 j
      rw [List.getD_eq_getElem _ _ hj1] at e1
      rw [List.getD_eq_getElem _ _ hj2] at e2
      rw [e1, e2]
      by_cases hm1 : j ∈ o1
      · rw [if_pos hm1, if_pos ((hmem j).mp hm1)]
      · rw [if_neg hm1, if_neg (fun h => hm1 ((hmem j).mpr h))]

/-- Witness for C1: on the concrete two-agent flock `mW`, processing order
`[0, 1]` and order `[1, 0]` produce the same flock. -/
theorem snapshot_isolation_witness :
    updateOrder (mW.boids.map Boid.position) mW.params rW [0, 1] mW.boids =
      updateOrder (mW.boids.map Boid.position) mW.params rW [1, 0] mW.boids :=
  (snapshot_isolation rW mW).2 [0, 1] [1, 0] (by decide) (by decide)
    (by decide) (by decide)
    (by intro k; simp [List.mem_cons]; exact or_comm)

/-- C2: Separation rule — `close_dx`/`close_dy` equal the sums of the
per-axis displacements over exactly the peers `j ≠ i` whose displacement
passes the inclusive-OR per-axis test; the position is then nudged by
`close · avoid_factor` directly, and velocity and direction flags are
untouched. -/
theorem separation_rule (b : Boid) (ps : List Vec2) (idx : Nat) (af pr ms : ℚ) :
    (b.separate ps idx af pr ms).position.x
        = b.position.x + (closeSums b.position ps idx pr).1 * af ∧
    (b.separate ps idx af pr ms).position.y
        = b.position.y + (closeSums b.position ps idx pr).2 * af ∧
    (b.separate ps idx af pr ms).velocity = b.velocity ∧
    (b.separate ps idx af pr ms).direction_x = b.direction_x ∧
    (b.separate ps idx af pr ms).direction_y = b.direction_y := by
  refine ⟨?_, ?_, rfl, rfl, rfl⟩ <;>
    simp [Boid.separate, separateClose_eq_closeSums]

/-- C3 as stated fails when the two margins overlap: in the 0×0 viewport
`rDeg`, the agent of `mDeg` satisfies the claim's Right-transition condition
(`x ≤ left + 10`) and Top-transition condition (`y ≤ bottom + 10`), yet after
the tick its flags are Left and Bottom, because the code checks the
Left/Bottom conditions first. -/
theorem boundary_machine_cex :
    (mDeg.boids.getD 0 b0).position.x ≤ rDeg.left + 10 ∧
    ((update rDeg mDeg).boids.getD 0 b0).direction_x = DirectionX.Left ∧
    (mDeg.boids.getD 0 b0).position.y ≤ rDeg.bottom + 10 ∧
    ((update rDeg mDeg).boids.getD 0 b0).direction_y = DirectionY.Bottom := by
  norm_num [mDeg, bDeg, rDeg, update, updateOrder, updateBoid, Boid.separate, separateClose,
    closeStep, clampSpeed, stepDirX, stepDirY, moveX, moveY, defaultParams,
    List.range_succ, v0, b0]

/-- C3 (amended): the flags follow the source's `else if` chains applied to
the post-separation position with margin 10 — to Left whenever
`x ≥ right − 10`; to Right when `x ≤ left + 10` and the Left condition does
not hold (the Left test has priority); otherwise unchanged — and
independently to Bottom/Top likewise. -/
theorem boundary_state_machine (s : List Vec2) (p : Params) (r : Rect) (i : Nat) (b : Boid)
    (px py : ℚ) (dx : DirectionX) (dy : DirectionY) :
    ((updateBoid s p r i b).direction_x
        = stepDirX (b.separate s i p.avoid_factor p.protected_range p.max_speed).position.x r
            b.direction_x) ∧
    ((updateBoid s p r i b).direction_y
        = stepDirY (b.separate s i p.avoid_factor p.protected_range p.max_speed).position.y r
            b.direction_y) ∧
    (px ≥ r.right - 10 → stepDirX px r dx = DirectionX.Left) ∧
    (¬ px ≥ r.right - 10 → px ≤ r.left + 10 → stepDirX px r dx = DirectionX.Right) ∧
    (¬ px ≥ r.right - 10 → ¬ px ≤ r.left + 10 → stepDirX px r dx = dx) ∧
    (py ≥ r.top - 10 → stepDirY py r dy = DirectionY.Bottom) ∧
    (¬ py ≥ r.top - 10 → py ≤ r.bottom + 10 → stepDirY py r dy = DirectionY.Top) ∧
    (¬ py ≥ r.top - 10 → ¬ py ≤ r.bottom + 10 → stepDirY py r dy = dy) := by
  refine ⟨rfl, rfl, ?_, ?_, ?_, ?_, ?_, ?_⟩
  · intro h1
    unfold stepDirX
    rw [if_pos h1]
  · intro h1 h2
    unfold stepDirX
    rw [if_neg h1, if_pos h2]
  · intro h1 h2
    unfold stepDirX
    rw [if_neg h1, if_neg h2]
  · intro h1
    unfold stepDirY
    rw [if_pos h1]
  · intro h1 h2
    unfold stepDirY
    rw [if_neg h1, if_pos h2]
  · intro h1 h2
    unfold stepDirY
    rw [if_neg h1, if_neg h2]

/-- Witness for C3 (amended): at `x = 395` in the 800×600 viewport the
Left condition holds and the machine turns Left. -/
theorem boundary_state_machine_witness :
    stepDirX 395 rW DirectionX.Right = DirectionX.Left :=
  (boundary_state_machine [] defaultParams rW 0 b0 395 0 DirectionX.Right
    DirectionY.Top).2.2.1 (by norm_num [rW])

/-- C4: Position integration — after the flags are updated, the tick adds
the agent's (clamped) velocity component to its post-separation position when
the flag is Right/Top and subtracts it when the flag is Left/Bottom. -/
theorem position_integration (s : List Vec2) (p : Params) (r : Rect) (i : Nat) (b : Boid) :
    ((updateBoid s p r i b).direction_x = DirectionX.Right →
      (updateBoid s p r i b).position.x
        = (b.separate s i p.avoid_factor p.protected_range p.max_speed).position.x
            + (updateBoid s p r i b).velocity.x) ∧
    ((updateBoid s p r i b).direction_x = DirectionX.Left →
      (updateBoid s p r i b).position.x
        = (b.separate s i p.avoid_factor p.protected_range p.max_speed).position.x
            - (updateBoid s p r i b).velocity.x) ∧
    ((updateBoid s p r i b).direction_y = DirectionY.Top →
      (updateBoid s p r i b).position.y
        = (b.separate s i p.avoid_factor p.protected_range p.max_speed).position.y
            + (updateBoid s p r i b).velocity.y) ∧
    ((updateBoid s p r i b).direction_y = DirectionY.Bottom →
      (updateBoid s p r i b).position.y
        = (b.separate s i p.avoid_factor p.protected_range p.max_speed).position.y
            - (updateBoid s p r i b).velocity.y) := by
  refine ⟨?_, ?_, ?_, ?_⟩
  · intro h
    rw [show (updateBoid s p r i b).position.x
        = moveX (b.separate s i p.avoid_factor p.protected_range p.max_speed).position.x
            ((updateBoid s p r i b).velocity.x) ((updateBoid s p r i b).direction_x) from rfl,
      h]
    rfl
  · intro h
    rw [show (updateBoid s p r i b).position.x
        = moveX (b.separate s i p.avoid_factor p.protected_range p.max_speed).position.x
            ((updateBoid s p r i b).velocity.x) ((updateBoid s p r i b).direction_x) from rfl,
      h]
    rfl
  · intro h
    rw [show (updateBoid s p r i b).position.y
        = moveY (b.separate s i p.avoid_factor p.protected_range p.max_speed).position.y
            ((updateBoid s p r i b).velocity.y) ((updateBoid s p r i b).direction_y) from rfl,
      h]
    rfl
  · intro h
    rw [show (updateBoid s p r i b).position.y
        = moveY (b.separate s i p.avoid_factor p.protected_range p.max_speed).position.y
            ((updateBoid s p r i b).velocity.y) ((updateBoid s p r i b).direction_y) from rfl,
      h]
    rfl

/-- Witness for C4: a lone agent far from the boundary keeps flag Right and
moves by `+velocity.x`. -/
theorem position_integration_witness :
    (updateBoid [] defaultParams rW 0 bA).position.x
      = (bA.separate [] 0 defaultParams.avoid_factor defaultParams.protected_range
          defaultParams.max_speed).position.x
        + (updateBoid [] defaultParams rW 0 bA).velocity.x :=
  (position_integration [] defaultParams rW 0 bA).1
    (by norm_num [updateBoid, Boid.separate, separateClose, closeStep, clampSpeed,
      stepDirX, stepDirY, bA, rW, defaultParams])

/-- C5 as stated fails: for agent 0 of the two-agent flock `mW` the net
x-change over one tick is 799/200 (separation nudge plus velocity), while
its flag stays Right and its velocity.x stays 4, so the claimed net change
`+velocity.x = 4` is wrong. -/
theorem displacement_cex :
    ((update rW mW).boids.getD 0 b0).direction_x = DirectionX.Right ∧
    ((update rW mW).boids.getD 0 b0).velocity.x = 4 ∧
    ((update rW mW).boids.getD 0 b0).position.x - (mW.boids.getD 0 b0).position.x
        = 799/200 ∧
    (799/200 : ℚ) ≠ 4 := by
  norm_num [mW, bA, bB, rW, update, updateOrder, updateBoid, Boid.separate, separateClose,
    closeStep, clampSpeed, stepDirX, stepDirY, moveX, moveY, defaultParams,
    List.range_succ, v0, b0]

/-- C5 (amended): per tick, an agent's net displacement is the separation
nudge `close · avoid_factor` plus its clamped velocity taken with the sign
implied by its post-tick direction flags — the movement part is signed by the
flags, never by the sign of `velocity` itself. -/
theorem displacement_decomposition (s : List Vec2) (p : Params) (r : Rect) (i : Nat)
    (b : Boid) :
    (updateBoid s p r i b).position.x - b.position.x
        = (closeSums b.position s i p.protected_range).1 * p.avoid_factor
            + signedX (updateBoid s p r i b).direction_x
                (clampSpeed b.velocity.x p.max_speed) ∧
    (updateBoid s p r i b).position.y - b.position.y
        = (closeSums b.position s i p.protected_range).2 * p.avoid_factor
            + signedY (updateBoid s p r i b).direction_y
                (clampSpeed b.velocity.y p.max_speed) := by
  constructor
  · rw [show (updateBoid s p r i b).position.x
        = moveX (b.position.x + (separateClose b.position s i p.protected_range).1
              * p.avoid_factor)
            (clampSpeed b.velocity.x p.max_speed) ((updateBoid s p r i b).direction_x)
        from rfl,
      separateClose_eq_closeSums]
    cases (updateBoid s p r i b).direction_x <;> (simp [moveX, signedX]; ring)
  · rw [show (updateBoid s p r i b).position.y
        = moveY (b.position.y + (separateClose b.position s i p.protected_range).2
              * p.avoid_factor)
            (clampSpeed b.velocity.y p.max_speed) ((updateBoid s p r i b).direction_y)
        from rfl,
      separateClose_eq_closeSums]
    cases (updateBoid s p r i b).direction_y <;> (simp [moveY, signedY]; ring)

/-- C6: Speed clamp — after any tick each velocity component is at most
`max_speed`, and a component already at most `max_speed` (including one below
`min_speed` or below zero) is left exactly as it was: the clamp is
upper-bound only. -/
theorem speed_clamp (r : Rect) (m : Model) (j : Nat) (hj : j < m.boids.length) :
    ((update r m).boids.getD j b0).velocity.x ≤ m.params.max_speed ∧
    ((update r m).boids.getD j b0).velocity.y ≤ m.params.max_speed ∧
    ((m.boids.getD j b0).velocity.x ≤ m.params.max_speed →
      ((update r m).boids.getD j b0).velocity.x = (m.boids.getD j b0).velocity.x) ∧
    ((m.boids.getD j b0).velocity.y ≤ m.params.max_speed →
      ((update r m).boids.getD j b0).velocity.y = (m.boids.getD j b0).velocity.y) := by
  rw [update_getD r m j hj]
  exact ⟨clampSpeed_le _ _, clampSpeed_le _ _,
    fun h => clampSpeed_eq_of_le h, fun h => clampSpeed_eq_of_le h⟩

/-- Witness for C6: the agent with velocity (−5, 2) — below zero and below
`min_speed` — keeps its velocity unchanged through a tick. -/
theorem speed_clamp_witness :
    ((update rW mSlow).boids.getD 0 b0).velocity.x ≤ mSlow.params.max_speed ∧
    ((update rW mSlow).boids.getD 0 b0).velocity.y ≤ mSlow.params.max_speed ∧
    ((mSlow.boids.getD 0 b0).velocity.x ≤ mSlow.params.max_speed →
      ((update rW mSlow).boids.getD 0 b0).velocity.x
        = (mSlow.boids.getD 0 b0).velocity.x) ∧
    ((mSlow.boids.getD 0 b0).velocity.y ≤ mSlow.params.max_speed →
      ((update rW mSlow).boids.getD 0 b0).velocity.y
        = (mSlow.boids.getD 0 b0).velocity.y) :=
  speed_clamp rW mSlow 0 (by simp [mSlow])

/-- C7: Boundary reflection across ticks — a lone agent at
`boundary.right − 5` (margin 10, x-speed 4) has flag Left after one tick and
strictly decreases its x on the following tick: the Left test keeps winning
while the agent is near the right edge, so it moves away without
oscillating. -/
theorem boundary_reflection_two_ticks (r : Rect) (b : Boid)
    (hx : b.position.x = r.right - 5) (hv : b.velocity.x = 4) :
    ((update r { boids := [b], params := defaultParams }).boids.getD 0 b0).direction_x
        = DirectionX.Left ∧
    ((update r (update r { boids := [b], params := defaultParams })).boids.getD 0
          b0).position.x
        < ((update r { boids := [b], params := defaultParams }).boids.getD 0 b0).position.x := by
  have hclamp : clampSpeed b.velocity.x defaultParams.max_speed = 4 := by
    rw [hv]
    exact clampSpeed_eq_of_le (by norm_num [defaultParams])
  have hd1 : stepDirX b.position.x r b.direction_x = DirectionX.Left := by
    unfold stepDirX
    rw [if_pos (by rw [hx]; linarith)]
  have hb1 := updateBoid_singleton defaultParams r b
  set B1 := updateBoid [b.position] defaultParams r 0 b
  have hB1x : B1.position.x = r.right - 9 := by
    rw [hb1]
    show moveX b.position.x (clampSpeed b.velocity.x defaultParams.max_speed)
        (stepDirX b.position.x r b.direction_x) = r.right - 9
    rw [hd1, hclamp, hx]
    show r.right - 5 - 4 = r.right - 9
    ring
  have hB1d : B1.direction_x = DirectionX.Left := by
    rw [hb1]
    exact hd1
  have hB1v : B1.velocity.x = 4 := by
    rw [hb1]
    exact hclamp
  have hd2 : stepDirX B1.position.x r B1.direction_x = DirectionX.Left := by
    unfold stepDirX
    rw [if_pos (by rw [hB1x]; linarith)]
  have hclamp2 : clampSpeed B1.velocity.x defaultParams.max_speed = 4 := by
    rw [hB1v]
    exact clampSpeed_eq_of_le (by norm_num [defaultParams])
  have hb2 := updateBoid_singleton defaultParams r B1
  have hfirst : update r { boids := [b], params := defaultParams }
      = { boids := [B1], params := defaultParams } := update_singleton r b defaultParams
  have hsecond : update r { boids := [B1], params := defaultParams }
      = { boids := [updateBoid [B1.position] defaultParams r 0 B1],
          params := defaultParams } := update_singleton r B1 defaultParams
  rw [hfirst, hsecond]
  constructor
  · show B1.direction_x = DirectionX.Left
    exact hB1d
  · show (updateBoid [B1.position] defaultParams r 0 B1).position.x < B1.position.x
    rw [hb2]
    show moveX B1.position.x (clampSpeed B1.velocity.x defaultParams.max_speed)
        (stepDirX B1.position.x r B1.direction_x) < B1.position.x
    rw [hd2, hclamp2]
    show B1.position.x - 4 < B1.position.x
    linarith

/-- Witness for C7: the agent at x = 395 in the 800×600 viewport. -/
theorem boundary_reflection_two_ticks_witness :
    ((update rW { boids := [bEdge], params := defaultParams }).boids.getD 0 b0).direction_x
        = DirectionX.Left ∧
    ((update rW (update rW { boids := [bEdge], params := defaultParams })).boids.getD 0
          b0).position.x
        < ((update rW { boids := [bEdge], params := defaultParams }).boids.getD 0
            b0).position.x :=
  boundary_reflection_two_ticks rW bEdge (by norm_num [bEdge, rW]) (by norm_num [bEdge])

/-- C8: Construction — the `model` loop with its bound abstracted to `n`
yields exactly `n` agents, agent `i` at `(-100 + i·10, 100 + i·30)`, all with
velocity `(4, 3)` and flags (Right, Top); it is a total pure function of `n`,
hence deterministic. -/
theorem construction_spec (n i : Nat) (hi : i < n) :
    (mkBoids n).length = n ∧
    (mkBoids n).getD i b0 =
      { position := ⟨-100 + (i : ℚ) * 10, 100 + (i : ℚ) * 30⟩,
        velocity := ⟨4, 3⟩,
        direction_x := DirectionX.Right,
        direction_y := DirectionY.Top } :=
  ⟨mkBoids_length n, mkBoids_getD n i hi⟩

/-- Witness for C8 at `n = 3`, `i = 1`. -/
theorem construction_spec_witness :
    (mkBoids 3).length = 3 ∧
    (mkBoids 3).getD 1 b0 =
      { position := ⟨-100 + (1 : ℚ) * 10, 100 + (1 : ℚ) * 30⟩,
        velocity := ⟨4, 3⟩,
        direction_x := DirectionX.Right,
        direction_y := DirectionY.Top } :=
  construction_spec 3 1 (by decide)

/-- C9: Frame condition — a tick keeps the parameter bundle and the agent
count; the agent stored at each index after the tick is the update of the
agent stored at that same index before it (order preserved), and its
velocity is exactly the clamp of its own pre-tick velocity, nothing else. -/
theorem frame_condition (r : Rect) (m : Model) :
    (update r m).params = m.params ∧
    (update r m).boids.length = m.boids.length ∧
    ∀ j : Nat, j < m.boids.length →
      ((update r m).boids.getD j b0
          = updateBoid (m.boids.map Boid.position) m.params r j (m.boids.getD j b0)) ∧
      ((update r m).boids.getD j b0).velocity.x
          = clampSpeed (m.boids.getD j b0).velocity.x m.params.max_speed ∧
      ((update r m).boids.getD j b0).velocity.y
          = clampSpeed (m.boids.getD j b0).velocity.y m.params.max_speed := by
  refine ⟨rfl, ?_, ?_⟩
  · show (updateOrder _ _ _ _ _).length = _
    rw [updateOrder_length]
  · intro j hj
    rw [update_getD r m j hj]
    exact ⟨rfl, rfl, rfl⟩

/-- Witness for C9 on the two-agent flock `mW` at index 0. -/
theorem frame_condition_witness :
    ((update rW mW).boids.getD 0 b0
        = updateBoid (mW.boids.map Boid.position) mW.params rW 0 (mW.boids.getD 0 b0)) ∧
    ((update rW mW).boids.getD 0 b0).velocity.x
        = clampSpeed (mW.boids.getD 0 b0).velocity.x mW.params.max_speed ∧
    ((update rW mW).boids.getD 0 b0).velocity.y
        = clampSpeed (mW.boids.getD 0 b0).velocity.y mW.params.max_speed :=
  (frame_condition rW mW).2.2 0 (by simp [mW])

/-- C10: velocity is constant in the built program — starting from the
10-agent initial flock (velocity (4, 3), max_speed 6), after any number of
ticks against any sequence of viewports every agent's velocity is still
(4, 3): the clamp branch never fires. -/
theorem velocity_constant (rects : Nat → Rect) (k j : Nat) (hj : j < 10) :
    ((iterateUpdate rects k initialModel).boids.getD j b0).velocity = ⟨4, 3⟩ :=
  (iterate_invariant rects k).2.2 j hj

/-- Witness for C10 after three ticks in the 800×600 viewport. -/
theorem velocity_constant_witness :
    ((iterateUpdate (fun _ => rW) 3 initialModel).boids.getD 0 b0).velocity = ⟨4, 3⟩ :=
  velocity_constant (fun _ => rW) 3 0 (by decide)

end Boids
